import Mathlib

/-!
Shallow embedding of the repository t1h0/custom-functions
(src/mailing.py and src/scraping.py) and proofs about it.

The two Python modules delegate all protocol, MIME and browser work to
external libraries (imaplib, email, selenium).  The embedding therefore
models the library boundary as explicit data: the raw server responses a
session would produce, the decoded header/part structure of a parsed
message, a codec for charset decoding, and a filesystem value for the
attachment writes.  Python exceptions are modelled with `Except`.
-/

namespace CustomFunctions

/-- Python exceptions that the embedded code can raise. -/
inductive PyExc where
  | indexError      -- sequence index out of range
  | valueError      -- int() on a non-numeric string
  | decodeError     -- bytes.decode failure (UnicodeDecodeError / LookupError)
  | attributeError  -- attribute access on an object lacking it
  | typeError       -- operation on a value of the wrong type
deriving DecidableEq, Repr

/-! ### imapSearch (src/mailing.py lines 29-44)

`imap.search(None, *query)[1][0]` is a whitespace-separated bytes string of
message identifiers, modelled as a `String` (the empty string also stands
for a `None` data item: both are falsy and nothing else inspects it).
`imap.select` performed for a named mailbox has no modelled effect here
beyond choosing which response string the session yields. -/

/-- Whitespace characters recognised by the Python `bytes.split()` with no
argument: space, tab, newline, carriage return, vertical tab, form feed. -/
def isPySpace (c : Char) : Bool :=
  c == ' ' || c == '\t' || c == '\n' || c == '\r' || c == '\x0b' || c == '\x0c'

/-- Splitting of a character list on runs of whitespace; `cur` is the
current token being accumulated, in reverse. -/
def pyTokensAux (cur : List Char) : List Char → List (List Char)
  | [] => if cur = [] then [] else [cur.reverse]
  | c :: cs =>
    if isPySpace c then
      if cur = [] then pyTokensAux [] cs else cur.reverse :: pyTokensAux [] cs
    else pyTokensAux (c :: cur) cs

/-- Python `s.split()` with no argument: split on runs of whitespace,
producing no empty tokens. -/
def pySplit (s : String) : List (List Char) :=
  pyTokensAux [] s.toList

/-- Accumulating decimal read of a digit sequence. -/
def charsToNatAux (acc : Nat) : List Char → Option Nat
  | [] => some acc
  | c :: cs => if c.isDigit then charsToNatAux (acc * 10 + (c.toNat - 48)) cs else none

/-- Python `int()` on the decimal literals this code feeds it: an optional
leading minus sign followed by a non-empty digit sequence; `none` models a
raised `ValueError`. -/
def charsToInt? : List Char → Option Int
  | [] => none
  | '-' :: cs => if cs = [] then none else (charsToNatAux 0 cs).map (fun n => -(n : Int))
  | cs => (charsToNatAux 0 cs).map (fun n => (n : Int))

/-- The list comprehension `[int(i) for i in result.split()]`: converts
every token with Python `int()`, raising on the first token that is not an
integer literal. -/
def intListOfTokens : List (List Char) → Option (List Int)
  | [] => some []
  | t :: ts =>
    match charsToInt? t, intListOfTokens ts with
    | some v, some l => some (v :: l)
    | _, _ => none

/-- Embedding of `imapSearch` (src/mailing.py lines 39-44): guard
`if not result: return list()` then the comprehension over the split tokens.
`searchData` is the raw response `imap.search(...)[1][0]`. -/
def imapSearch (searchData : String) : Except PyExc (List Int) :=
  if searchData = "" then .ok []
  else
    match intListOfTokens (pySplit searchData) with
    | some l => .ok l
    | none => .error .valueError

/-! ### imapReceive (src/mailing.py lines 47-77)

The session is modelled by the raw responses the library calls would
produce: `selectData` is `imap.select(mailbox)[1][0]` (the reported message
count as a bytes string, `none` when the server reports `None`),
`searchData` is the raw `imap.search(None, "ALL")[1][0]` for the currently
selected mailbox, and `fetch i` is `imap.fetch(str(i), "(RFC822)")[1]`.
`message_from_bytes` is an external MIME parser and is modelled as the
identity on the fetched byte payloads, so a received message is its
`List Nat` of bytes. -/

/-- One item of a fetch response list: either a `(envelope, data)` tuple
whose second component holds the RFC822 bytes, or a non-tuple item (such
as a closing flags bytes) which the loop skips. -/
inductive FetchItem where
  | tup (raw : List Nat)
  | other
deriving DecidableEq, Repr

/-- The raw responses of a connected session, as `imapReceive` consumes
them. -/
structure Session where
  selectData : Option String
  searchData : String
  fetch : Int → List FetchItem

/-- The selection argument `n` of `imapReceive`: a single integer or an
explicit list of message identifiers. -/
inductive NArg where
  | int (n : Int)
  | list (l : List Int)
deriving DecidableEq, Repr

/-- Python `range(start, stop, -1)` as a list of integers: the
`max 0 (start - stop)` values `start, start - 1, ...` down to `stop + 1`. -/
def pyRangeDown (start stop : Int) : List Int :=
  (List.range (start - stop).toNat).map (fun k => start - (k : Int))

/-- The inner loop body of `imapReceive` for one identifier
(src/mailing.py lines 73-76): the parsed messages of the tuple items of
the fetch response, in response order. -/
def fetchParsed (s : Session) (i : Int) : List (List Nat) :=
  (s.fetch i).filterMap (fun item => match item with
    | .tup raw => some raw
    | .other => none)

/-- The `iterate` value chosen by `imapReceive` (src/mailing.py
lines 64-70).  At this point of the source the variable `msgN` holds the
boolean `False`: the guard on line 62 reads
`(msgN := int(msgN[0]) == 0)`, and the walrus operator binds the whole
comparison, so whenever execution proceeds past that line `msgN` was
rebound to `False`.  Python arithmetic then coerces the boolean to the
integer 0, which the `msgN` argument below carries. -/
def receiveIterate (msgN : Bool) (n : NArg) : List Int :=
  let m : Int := if msgN then 1 else 0
  match n with
  | .int k => if k == 0 || k > m then pyRangeDown m 0 else pyRangeDown m (m - k)
  | .list l => l

/-- Embedding of `imapReceive` (src/mailing.py lines 58-77).  The count
source is `imap.select` when a mailbox name is given and
`imapSearch(imap, None, "ALL")` otherwise; the guard on line 62 is
`if not msgN[0] or (msgN := int(msgN[0]) == 0): return list()`, where
`msgN[0]` raises `IndexError` on an empty search-result list, `int()`
raises `ValueError` on a non-numeric bytes string, and the walrus rebinds
`msgN` to the boolean comparison result. -/
def imapReceive (s : Session) (mailbox : Option String) (n : NArg) :
    Except PyExc (List (List Nat)) :=
  let body : Except PyExc (List (List Nat)) :=
    .ok ((receiveIterate false n).flatMap (fetchParsed s))
  match mailbox with
  | some _ =>
    match s.selectData with
    | none => .ok []
    | some d =>
      if d = "" then .ok []
      else
        match charsToInt? d.toList with
        | none => .error .valueError
        | some v => if v == 0 then .ok [] else body
  | none =>
    match imapSearch s.searchData with
    | .error e => .error e
    | .ok [] => .error .indexError
    | .ok (h :: _) =>
      -- both disjuncts of the guard reduce to `h == 0` here: `not msgN[0]`
      -- tests the first identifier for falsiness and `int(msgN[0]) == 0`
      -- compares the same integer with zero
      if h == 0 then .ok [] else body

/-! ### imapConnect (src/mailing.py lines 11-26)

The IMAP4_SSL construction, TLS and `login` are library calls; what the
function itself decides is which password string reaches `imap.login`.
`promptInput` models the string `getpass("Input password: ")` would return. -/

/-- Truth of `not pw` in `imapConnect`: Python falsiness of an optional
string, true for `None` and for the empty string. -/
def pwFalsy (pw : Option String) : Bool :=
  match pw with
  | none => true
  | some p => p = ""

/-- The password that `imapConnect` passes to `imap.login`
(src/mailing.py lines 23-25): the prompt result whenever the argument is
falsy, the supplied string otherwise. -/
def loginPassword (pw : Option String) (promptInput : String) : String :=
  if pwFalsy pw then promptInput else match pw with | some p => p | none => promptInput

/-! ### mailRead (src/mailing.py lines 80-135)

A parsed `email.message.Message` is modelled by what `mailRead` reads from
it: for each of the three headers the first `decode_header` pair
`(content, encoding)`, and for each part of `mail.walk()` (in walk order,
top-level part included) its content type, its `Content-Disposition`
header, its `get_payload(decode=True)` bytes and its filename.  Charset
decoding (`bytes.decode`) belongs to the Python runtime and is a `Codec`
parameter; a `none` result models a raised decoding error.  `print` and
`logging.info` calls only echo and are not modelled.  The filesystem the
attachment block mutates is a value: a list of existing directories and an
association list from file path to written bytes, most recent write
first. -/

/-- The `content` component of a `decode_header` pair: already a `str`, or
raw bytes still to decode. -/
inductive HContent where
  | str (v : String)
  | bytes (v : List Nat)
deriving DecidableEq, Repr

/-- One `decode_header(mail[head])[0]` pair. -/
structure HeaderRaw where
  content : HContent
  encoding : Option String
deriving DecidableEq, Repr

/-- One part yielded by `mail.walk()`.  `payload` is
`part.get_payload(decode=True)`: `none` models the `None` a multipart
container yields, `some b` the payload bytes. -/
structure Part where
  contentType : String
  contentDisposition : Option String
  payload : Option (List Nat)
  filename : Option String
deriving DecidableEq, Repr

/-- A parsed message, as `mailRead` consumes it.  The three headers are
modelled as present: `mailRead` indexes `decode_header(mail[head])[0]`
unconditionally and every claim under study supplies them. -/
structure Msg where
  subjectRaw : HeaderRaw
  fromRaw : HeaderRaw
  toRaw : HeaderRaw
  parts : List Part
deriving DecidableEq, Repr

/-- The charset decoders of the Python runtime: `decodeHeaderBytes b enc`
models `b.decode(enc)` and `decodeBody b` models the argument-free
`b.decode()`; `none` models a raised exception. -/
structure Codec where
  decodeHeaderBytes : List Nat → String → Option String
  decodeBody : List Nat → Option String

/-- A dictionary value: `mailRead` stores a `str` for a decoded header and
keeps the raw bytes when `decode_header` yields bytes with no encoding. -/
inductive PyVal where
  | str (s : String)
  | bytes (b : List Nat)
deriving DecidableEq, Repr

/-- The dictionary `mailRead` returns: the three decoded headers and the
two body accumulators, every key always present. -/
structure MailResult where
  subject : PyVal
  sender : PyVal
  recipient : PyVal
  textPlain : String
  textHtml : String
deriving DecidableEq, Repr

/-- The filesystem state the attachment block mutates: existing
directories, and written files as an association list (most recent write
first, so a later write to the same path shadows the earlier one). -/
structure FS where
  dirs : List String
  files : List (String × List Nat)
deriving DecidableEq, Repr

/-- Lookup of the bytes last written to a path. -/
def FS.read (fs : FS) (path : String) : Option (List Nat) :=
  (fs.files.find? (fun e => e.1 = path)).map (fun e => e.2)

/-- Header decoding (src/mailing.py lines 94-98): decode bytes content when
an encoding is named, keep a `str` as-is, and keep undecoded bytes when no
encoding is named.  A failing `content.decode(encoding)` raises. -/
def decodeHead (c : Codec) (h : HeaderRaw) : Except PyExc PyVal :=
  match h.content, h.encoding with
  | .str v, _ => .ok (.str v)
  | .bytes b, none => .ok (.bytes b)
  | .bytes b, some enc =>
    match c.decodeHeaderBytes b enc with
    | some v => .ok (.str v)
    | none => .error .decodeError

/-- Python `str(part.get("Content-Disposition"))`: the literal string
`"None"` when the header is absent. -/
def dispositionStr (p : Part) : String :=
  match p.contentDisposition with
  | some s => s
  | none => "None"

/-- Occurrence of `sub` at the head of `hay`. -/
def subAt : List Char → List Char → Bool
  | [], _ => true
  | _ :: _, [] => false
  | c :: cs, d :: ds => c == d && subAt cs ds

/-- Occurrence of `sub` anywhere in `hay`: the Python `in` test on
strings. -/
def containsSub (sub : List Char) : List Char → Bool
  | [] => sub.isEmpty
  | d :: ds => subAt sub (d :: ds) || containsSub sub ds

/-- Python `"attachment" in content_disposition`: substring test. -/
def hasAttachment (p : Part) : Bool :=
  containsSub "attachment".toList (dispositionStr p).toList

/-- The generator expression deriving the per-message folder name
(src/mailing.py lines 126-127): every non-alphanumeric character of the
subject becomes an underscore. -/
def sanitizeSubject (s : String) : String :=
  (s.toList.map (fun ch => if ch.isAlphanum then ch else '_')).asString

/-- Python `os.path.join` for the two joins the attachment block performs,
with the usual `/` separator. -/
def pathJoin (a b : String) : String :=
  a ++ "/" ++ b

/-- The body text the `try` block obtains for a part, when it obtains one:
`part.get_payload(decode=True).decode()` succeeds only when the payload is
bytes (not `None`) and those bytes decode; every failure is swallowed by
the bare `except: pass`. -/
def bodyOf (c : Codec) (p : Part) : Option String :=
  p.payload.bind c.decodeBody

/-- The walk-loop accumulator: the `text/plain` accumulator, the
`text/html` accumulator, and the filesystem. -/
def WalkAcc : Type := String × String × FS

/-- The `else` suite of the `try` (src/mailing.py lines 112-121): append a
plain-text body unless the disposition marks an attachment, else append an
HTML body. -/
def textAccum (p : Part) (body : String) (acc : WalkAcc) : WalkAcc :=
  if p.contentType = "text/plain" ∧ ¬ hasAttachment p then
    (acc.1 ++ body, acc.2.1, acc.2.2)
  else if p.contentType = "text/html" then
    (acc.1, acc.2.1 ++ body, acc.2.2)
  else acc

/-- The attachment block (src/mailing.py lines 122-134), run for every part
after the `try` statement: when the disposition marks an attachment, a
download directory was supplied and the part carries a (truthy) filename,
derive the subject folder, create it if absent and write the raw payload
bytes.  Iterating a bytes subject raises `AttributeError` (its elements
are `int`s without `isalnum`), and `write(None)` on a payload-less part
raises `TypeError`. -/
def attachExtract (download : String) (subject : PyVal) (acc : WalkAcc)
    (p : Part) : Except PyExc WalkAcc :=
  if hasAttachment p ∧ download ≠ "" then
    match p.filename with
    | none => .ok acc
    | some fname =>
      if fname = "" then .ok acc
      else
        match subject with
        | .bytes _ => .error .attributeError
        | .str subj =>
          let folderPath := pathJoin download (sanitizeSubject subj)
          let fs1 : FS :=
            if folderPath ∈ acc.2.2.dirs then acc.2.2
            else { acc.2.2 with dirs := folderPath :: acc.2.2.dirs }
          match p.payload with
          | none => .error .typeError
          | some raw =>
            .ok (acc.1, acc.2.1,
              { fs1 with files := (pathJoin folderPath fname, raw) :: fs1.files })
  else .ok acc

/-- One iteration of the walk loop (src/mailing.py lines 103-134): the
`try` either yields a body that feeds the accumulators or fails silently,
and the attachment block runs in both cases. -/
def walkStep (c : Codec) (download : String) (subject : PyVal)
    (acc : WalkAcc) (p : Part) : Except PyExc WalkAcc :=
  match bodyOf c p with
  | none => attachExtract download subject acc p
  | some body => attachExtract download subject (textAccum p body acc) p

/-- Embedding of `mailRead` (src/mailing.py lines 80-135): decode the three
headers, initialise both body accumulators to the empty string, fold the
walk loop over the parts and return the dictionary together with the
filesystem it produced. -/
def mailRead (c : Codec) (mail : Msg) (download : String) (fs : FS) :
    Except PyExc (MailResult × FS) :=
  match decodeHead c mail.subjectRaw with
  | .error e => .error e
  | .ok subj =>
    match decodeHead c mail.fromRaw with
    | .error e => .error e
    | .ok sender =>
      match decodeHead c mail.toRaw with
      | .error e => .error e
      | .ok recipient =>
        match mail.parts.foldlM (walkStep c download subj) (("", "", fs) : WalkAcc) with
        | .error e => .error e
        | .ok acc =>
          .ok ({ subject := subj, sender := sender, recipient := recipient,
                 textPlain := acc.1, textHtml := acc.2.1 }, acc.2.2)

/-! ### waitClickable (src/scraping.py lines 10-24)

`WebDriverWait(driver, timeout).until(...)` either yields an element,
raises `TimeoutException`, or raises some other driver exception; that
trichotomy is the input of the embedded function.  Elements are abstracted
to `Nat` handles. -/

/-- Exceptions coming out of the selenium wait: the timeout, or any other
driver exception identified by its name. -/
inductive DriverExc where
  | timeoutExc
  | otherExc (name : String)
deriving DecidableEq, Repr

/-- Outcome of the `until` call inside `waitClickable`. -/
inductive UntilResult where
  | elem (e : Nat)
  | exc (x : DriverExc)
deriving DecidableEq, Repr

/-- Embedding of `waitClickable` (src/scraping.py lines 21-24): return the
element on success, `None` on `TimeoutException`, and let every other
exception propagate. -/
def waitClickable (r : UntilResult) : Except DriverExc (Option Nat) :=
  match r with
  | .elem e => .ok (some e)
  | .exc .timeoutExc => .ok none
  | .exc (.otherExc name) => .error (.otherExc name)

/-- The condition under which `imapReceive` proceeds past its guard: the
count source reports a first item that is truthy and numerically
non-zero.  A real non-empty mailbox satisfies it on both paths: `select`
reports the positive count as a digit string, and the `ALL` search lists
the identifiers starting from one. -/
def selectedNonEmpty (s : Session) (mailbox : Option String) : Prop :=
  match mailbox with
  | some _ => ∃ d v, s.selectData = some d ∧ d ≠ "" ∧
      charsToInt? d.toList = some v ∧ v ≠ 0
  | none => ∃ h t, imapSearch s.searchData = .ok (h :: t) ∧ h ≠ 0

/-- The size the session reports for the selected mailbox: the count from
the `select` response when a mailbox name is given, the number of
identifiers the `ALL` search returns otherwise. -/
def mailboxSize (s : Session) (mailbox : Option String) : Option Int :=
  match mailbox with
  | some _ => (s.selectData.map String.toList).bind charsToInt?
  | none =>
    match imapSearch s.searchData with
    | .ok l => some (l.length : Int)
    | .error _ => none

/-- A session whose mailbox `INBOX` holds two messages: `select` reports
the count `b"2"`, the `ALL` search lists both identifiers, and fetching
identifier `i` yields one tuple whose bytes are abstracted to `[i]`. -/
def sessionTwo : Session :=
  { selectData := some "2"
    searchData := "1 2"
    fetch := fun i => [.tup [i.toNat]] }

/-- A session whose currently selected mailbox is empty and for which no
mailbox name is passed: the `ALL` search returns the empty bytes
response. -/
def sessionEmptyNoName : Session :=
  { selectData := none
    searchData := ""
    fetch := fun _ => [] }

/-- A session for which `select` on the named mailbox reports zero
messages. -/
def sessionEmptyNamed : Session :=
  { selectData := some "0"
    searchData := ""
    fetch := fun _ => [] }

/-- A codec on which every decode attempt fails, modelling payloads that
are invalid for their declared encoding. -/
def codecNone : Codec :=
  { decodeHeaderBytes := fun _ _ => none
    decodeBody := fun _ => none }

/-- An empty filesystem. -/
def fsEmpty : FS :=
  { dirs := [], files := [] }

/-- An inline plain-text part whose payload bytes fail to decode. -/
def partBad : Part :=
  { contentType := "text/plain"
    contentDisposition := some "inline"
    payload := some [255]
    filename := none }

/-- An attachment part named `report.pdf` with payload bytes `[1, 2, 3]`. -/
def partAttach : Part :=
  { contentType := "application/pdf"
    contentDisposition := some "attachment; filename=report.pdf"
    payload := some [1, 2, 3]
    filename := some "report.pdf" }

/-- A binary attachment part that is neither plain text nor HTML. -/
def partBin : Part :=
  { contentType := "application/octet-stream"
    contentDisposition := some "attachment; filename=a.bin"
    payload := some [0]
    filename := some "a.bin" }

/-- A message with string headers whose only part is the binary
attachment: no plain-text part and no HTML part. -/
def msgNoText : Msg :=
  { subjectRaw := { content := .str "S", encoding := none }
    fromRaw := { content := .str "F", encoding := none }
    toRaw := { content := .str "T", encoding := none }
    parts := [partBin] }

/-! ## Helper lemmas -/

/-- Successful token conversion relates tokens and integers pointwise. -/
theorem intListOfTokens_forall2 (ts : List (List Char)) (l : List Int)
    (h : intListOfTokens ts = some l) :
    List.Forall₂ (fun t v => charsToInt? t = some v) ts l := by
  induction ts generalizing l with
  | nil =>
    simp only [intListOfTokens, Option.some.injEq] at h
    subst h
    exact List.Forall₂.nil
  | cons t ts ih =>
    simp only [intListOfTokens] at h
    cases ht : charsToInt? t with
    | none => rw [ht] at h; exact absurd h (by simp)
    | some v =>
      rw [ht] at h
      cases hts : intListOfTokens ts with
      | none => rw [hts] at h; exact absurd h (by simp)
      | some l' =>
        rw [hts] at h
        simp only [Option.some.injEq] at h
        subst h
        exact List.Forall₂.cons ht (ih l' hts)

/-- With `msgN` rebound to `False` by the walrus guard, every integer
selection argument yields an empty iteration range. -/
theorem receiveIterate_int_false (k : Int) : receiveIterate false (.int k) = [] := by
  have hs : receiveIterate false (.int k) =
      if k == 0 || k > 0 then pyRangeDown 0 0 else pyRangeDown 0 (0 - k) := rfl
  rw [hs]
  split
  · rfl
  · rename_i hk
    simp only [Bool.or_eq_true, beq_iff_eq, decide_eq_true_eq, not_or] at hk
    unfold pyRangeDown
    have h0 : ((0 : Int) - (0 - k)).toNat = 0 := by omega
    rw [h0]
    rfl

/-- Fetch responses holding exactly one message each turn the fetch loop
into a map over the identifiers. -/
theorem flatMap_of_singletons {α β : Type} (f : α → List β) (g : α → β)
    (l : List α) (h : ∀ i ∈ l, f i = [g i]) : l.flatMap f = l.map g := by
  induction l with
  | nil => rfl
  | cons a l ih =>
    have ha := h a (List.mem_cons_self a l)
    simp only [List.flatMap_cons, List.map_cons, ha]
    rw [ih (fun i hi => h i (List.mem_cons_of_mem a hi))]
    rfl

/-- Bind of a successful `Except` computation. -/
theorem except_bind_ok {ε α β : Type} (a : α) (f : α → Except ε β) :
    (Except.ok a : Except ε α) >>= f = f a := rfl

/-- Bind of a failed `Except` computation. -/
theorem except_bind_error {ε α β : Type} (e : ε) (f : α → Except ε β) :
    (Except.error e : Except ε α) >>= f = .error e := rfl

/-- The attachment block never changes the two text accumulators: a
successful run only updates the filesystem component. -/
theorem attachExtract_fst_snd (download : String) (subject : PyVal)
    (acc : WalkAcc) (p : Part) (out : WalkAcc)
    (h : attachExtract download subject acc p = .ok out) :
    out.1 = acc.1 ∧ out.2.1 = acc.2.1 := by
  unfold attachExtract at h
  split at h
  · split at h
    · cases h
      exact ⟨rfl, rfl⟩
    · split at h
      · cases h
        exact ⟨rfl, rfl⟩
      · split at h
        · simp at h
        · split at h
          · simp at h
          · cases h
            exact ⟨rfl, rfl⟩
  · cases h
    exact ⟨rfl, rfl⟩

/-- The body-accumulation step leaves the filesystem component unchanged. -/
theorem textAccum_fs (p : Part) (body : String) (acc : WalkAcc) :
    (textAccum p body acc).2.2 = acc.2.2 := by
  unfold textAccum
  split
  · rfl
  · split <;> rfl

/-- A part that is neither plain text nor HTML leaves both text
accumulators of a successful walk step unchanged. -/
theorem walkStep_text_preserved (c : Codec) (download : String)
    (subject : PyVal) (acc : WalkAcc) (p : Part) (out : WalkAcc)
    (hpt : p.contentType ≠ "text/plain") (hph : p.contentType ≠ "text/html")
    (h : walkStep c download subject acc p = .ok out) :
    out.1 = acc.1 ∧ out.2.1 = acc.2.1 := by
  unfold walkStep at h
  cases hb : bodyOf c p with
  | none =>
    rw [hb] at h
    exact attachExtract_fst_snd _ _ _ _ _ h
  | some body =>
    rw [hb] at h
    have ht : textAccum p body acc = acc := by
      unfold textAccum
      rw [if_neg (fun hc => hpt hc.1), if_neg hph]
    have h' : attachExtract download subject (textAccum p body acc) p = .ok out := h
    rw [ht] at h'
    exact attachExtract_fst_snd _ _ _ _ _ h'

/-- Folding the walk over parts that are neither plain text nor HTML
leaves both text accumulators unchanged. -/
theorem foldlM_text_preserved (c : Codec) (download : String)
    (subject : PyVal) :
    ∀ (parts : List Part) (acc out : WalkAcc),
      (∀ p ∈ parts, p.contentType ≠ "text/plain" ∧ p.contentType ≠ "text/html") →
      parts.foldlM (walkStep c download subject) acc = .ok out →
      out.1 = acc.1 ∧ out.2.1 = acc.2.1 := by
  intro parts
  induction parts with
  | nil =>
    intro acc out _ h
    rw [List.foldlM_nil] at h
    cases h
    exact ⟨rfl, rfl⟩
  | cons p ps ih =>
    intro acc out hall h
    rw [List.foldlM_cons] at h
    cases hw : walkStep c download subject acc p with
    | error e =>
      rw [hw, except_bind_error] at h
      simp at h
    | ok mid =>
      rw [hw, except_bind_ok] at h
      have h1 := walkStep_text_preserved c download subject acc p mid
        (hall p (List.mem_cons_self p ps)).1 (hall p (List.mem_cons_self p ps)).2 hw
      have h2 := ih mid out (fun q hq => hall q (List.mem_cons_of_mem p hq)) h
      exact ⟨h2.1.trans h1.1, h2.2.trans h1.2⟩

/-- A successful attachment write produces exactly the expected
filesystem: the subject folder created only when absent, and the raw
payload bytes stored at the joined path. -/
theorem attachExtract_write_eq (download subj : String) (acc : WalkAcc)
    (p : Part) (fname : String) (raw : List Nat)
    (hatt : hasAttachment p = true) (hdl : download ≠ "")
    (hfn : p.filename = some fname) (hfne : fname ≠ "")
    (hpl : p.payload = some raw) :
    attachExtract download (.str subj) acc p =
      .ok (acc.1, acc.2.1,
        { dirs :=
            if pathJoin download (sanitizeSubject subj) ∈ acc.2.2.dirs
            then acc.2.2.dirs
            else pathJoin download (sanitizeSubject subj) :: acc.2.2.dirs
          files :=
            (pathJoin (pathJoin download (sanitizeSubject subj)) fname, raw)
              :: acc.2.2.files }) := by
  by_cases hmem : pathJoin download (sanitizeSubject subj) ∈ acc.2.2.dirs <;>
    simp [attachExtract, hatt, hdl, hfn, hfne, hpl, hmem]

/-! ## Claim theorems -/

/-- C1: the claim says fetching with `n = 0` from a mailbox of `M ≥ 1`
messages returns all `M` of them, newest first.  The code disagrees: on
the two-message session the result is empty, not the claimed two messages,
although both messages are individually fetchable.  Cause: the guard
`(msgN := int(msgN[0]) == 0)` rebinds `msgN` to the boolean `False`, so
`range(msgN, 0, -1)` is `range(0, 0, -1)` and iterates over nothing. -/
theorem imapReceive_count_zero_fetches_nothing :
    imapReceive sessionTwo (some "INBOX") (.int 0) = .ok [] ∧
    imapReceive sessionTwo (some "INBOX") (.int 0) ≠ .ok [[2], [1]] ∧
    fetchParsed sessionTwo 2 = [[2]] ∧ fetchParsed sessionTwo 1 = [[1]] := by
  refine ⟨rfl, ?_, rfl, rfl⟩
  intro h
  rw [show imapReceive sessionTwo (some "INBOX") (.int 0) =
        (.ok [] : Except PyExc (List (List Nat))) from rfl] at h
  simp at h

/-- C2: the claim says an empty mailbox yields an empty list on both
paths.  The named-mailbox path does return the empty list, but the
no-mailbox path evaluates `msgN[0]` on the empty identifier list that
`imapSearch` returns for an empty mailbox and raises `IndexError`. -/
theorem imapReceive_empty_mailbox_two_paths :
    imapReceive sessionEmptyNoName none (.int 0) = .error .indexError ∧
    imapReceive sessionEmptyNamed (some "INBOX") (.int 0) = .ok [] :=
  ⟨rfl, rfl⟩

/-- C3: on a session that proceeds past the emptiness guard, an explicit
identifier list makes `imapReceive` fetch exactly those identifiers in the
given order, one returned message per identifier, whatever the mailbox
count. -/
theorem imapReceive_explicit_list (s : Session) (mailbox : Option String)
    (l : List Int) (msgOf : Int → List Nat)
    (hne : selectedNonEmpty s mailbox)
    (hfetch : ∀ i ∈ l, fetchParsed s i = [msgOf i]) :
    imapReceive s mailbox (.list l) = .ok (l.map msgOf) := by
  have hbody : (receiveIterate false (.list l)).flatMap (fetchParsed s) = l.map msgOf :=
    flatMap_of_singletons (fetchParsed s) msgOf l hfetch
  cases mailbox with
  | some mb =>
    obtain ⟨d, v, hd, hde, hv, hv0⟩ := hne
    have hv' : charsToInt? d.data = some v := hv
    simp [imapReceive, hd, hde, hv', hv0, hbody]
  | none =>
    obtain ⟨hh, t, hs, h0⟩ := hne
    simp [imapReceive, hs, h0, hbody]

/-- Witness for C3: requesting `[5, 2, 9]` from the two-message session
returns their three messages in the order 5, 2, 9. -/
theorem imapReceive_explicit_list_witness :
    imapReceive sessionTwo (some "INBOX") (.list [5, 2, 9]) =
      .ok [[5], [2], [9]] :=
  imapReceive_explicit_list sessionTwo (some "INBOX") [5, 2, 9]
    (fun i => [i.toNat]) ⟨"2", 2, rfl, by decide, rfl, by decide⟩
    (fun i _ => rfl)

/-- C4: fetching with an integer `n` at least the mailbox size returns the
same result as fetching with `n = 0`.  The equality holds for every
session and in fact independently of `n`: both calls iterate over the
empty range the rebound `msgN` produces. -/
theorem imapReceive_count_ge_size_matches_zero (s : Session)
    (mailbox : Option String) (M k : Int)
    (_hM : mailboxSize s mailbox = some M) (_hk : M ≤ k) :
    imapReceive s mailbox (.int k) = imapReceive s mailbox (.int 0) := by
  simp only [imapReceive, receiveIterate_int_false]

/-- Witness for C4: the two-message session with `n = 5`. -/
theorem imapReceive_count_ge_size_matches_zero_witness :
    mailboxSize sessionTwo (some "INBOX") = some 2 ∧
    imapReceive sessionTwo (some "INBOX") (.int 5) =
      imapReceive sessionTwo (some "INBOX") (.int 0) :=
  ⟨rfl, imapReceive_count_ge_size_matches_zero sessionTwo (some "INBOX") 2 5
    rfl (by decide)⟩

/-- C5: `imapSearch` returns the empty list when the server reports no
matches (empty raw response), and for every raw response it successfully
converts, the returned integer list has exactly one element per
whitespace-separated token of the response, in the same order. -/
theorem imapSearch_token_count_and_order (d : String) :
    (d = "" → imapSearch d = Except.ok []) ∧
    (∀ l, imapSearch d = Except.ok l →
      l.length = (pySplit d).length ∧
      List.Forall₂ (fun t v => charsToInt? t = some v) (pySplit d) l) := by
  constructor
  · intro h
    simp [imapSearch, h]
  · intro l hl
    by_cases hd : d = ""
    · have h0 : imapSearch d = Except.ok [] := by simp [imapSearch, hd]
      rw [h0] at hl
      injection hl with hl
      subst hl
      subst hd
      exact ⟨rfl, List.Forall₂.nil⟩
    · simp only [imapSearch, if_neg hd] at hl
      cases heq : intListOfTokens (pySplit d) with
      | none => rw [heq] at hl; exact absurd hl (by simp)
      | some l' =>
        rw [heq] at hl
        simp only [Except.ok.injEq] at hl
        subst hl
        have hf := intListOfTokens_forall2 _ _ heq
        exact ⟨hf.length_eq.symm, hf⟩

/-- Witness for C5 at the concrete response `"3 1 2"`. -/
theorem imapSearch_token_count_and_order_witness :
    imapSearch "3 1 2" = Except.ok [3, 1, 2] ∧
    ([3, 1, 2] : List Int).length = (pySplit "3 1 2").length := by
  have h : imapSearch "3 1 2" = Except.ok [3, 1, 2] := rfl
  exact ⟨h, ((imapSearch_token_count_and_order "3 1 2").2 [3, 1, 2] h).1⟩

/-- C9: `waitClickable` turns a timeout of the wait into an `Option`-style
absent value with no exception, returns the element on success, and lets
every other driver exception propagate unmodified. -/
theorem waitClickable_timeout_none_others_propagate :
    waitClickable (.exc .timeoutExc) = .ok none ∧
    (∀ e, waitClickable (.elem e) = .ok (some e)) ∧
    (∀ name, waitClickable (.exc (.otherExc name)) = .error (.otherExc name)) :=
  ⟨rfl, fun _ => rfl, fun _ => rfl⟩

/-- C10: the password guard of `imapConnect` fires exactly on falsy
arguments, so an explicitly supplied empty string triggers the prompt just
like an omitted password, and in both cases the string reaching
`imap.login` is the prompt input rather than the supplied empty string. -/
theorem imapConnect_empty_password_prompts :
    (∀ pw : Option String, pwFalsy pw = true ↔ (pw = none ∨ pw = some "")) ∧
    (∀ promptInput : String,
      loginPassword (some "") promptInput = promptInput ∧
      loginPassword none promptInput = promptInput ∧
      loginPassword (some "") promptInput = loginPassword none promptInput) := by
  constructor
  · intro pw
    cases pw with
    | none => simp [pwFalsy]
    | some p => simp [pwFalsy]
  · intro promptInput
    exact ⟨rfl, rfl, rfl⟩

/-- C6: when the payload of a part fails to decode as text, the walk step
for that part raises nothing new: it is exactly the attachment extraction
applied to the same part, any successful attachment extraction leaves both
text accumulators unchanged, and the fold over the remaining parts
continues from the result of that step. -/
theorem mailRead_part_decode_failure (c : Codec) (download : String)
    (subject : PyVal) (acc : WalkAcc) (p : Part)
    (hfail : bodyOf c p = none) :
    walkStep c download subject acc p = attachExtract download subject acc p ∧
    (∀ out, attachExtract download subject acc p = Except.ok out →
      out.1 = acc.1 ∧ out.2.1 = acc.2.1) ∧
    (∀ out rest, walkStep c download subject acc p = Except.ok out →
      (p :: rest).foldlM (walkStep c download subject) acc =
        rest.foldlM (walkStep c download subject) out) := by
  refine ⟨?_, ?_, ?_⟩
  · unfold walkStep
    rw [hfail]
  · intro out h
    exact attachExtract_fst_snd _ _ _ _ _ h
  · intro out rest h
    rw [List.foldlM_cons, h, except_bind_ok]

/-- Witness for C6: an inline plain-text part with an undecodable payload
is processed as pure attachment extraction (here a no-op) and leaves the
accumulators untouched. -/
theorem mailRead_part_decode_failure_witness :
    walkStep codecNone "" (.str "S") ("t", "h", fsEmpty) partBad =
      attachExtract "" (.str "S") ("t", "h", fsEmpty) partBad ∧
    attachExtract "" (.str "S") ("t", "h", fsEmpty) partBad =
      Except.ok ("t", "h", fsEmpty) :=
  ⟨(mailRead_part_decode_failure codecNone "" (.str "S") ("t", "h", fsEmpty)
      partBad rfl).1, rfl⟩

/-- C7: a part whose disposition marks an attachment with a filename, with
a download directory supplied, makes the walk step write the raw payload
bytes unchanged to the path download dir, then sanitized subject, then
filename, creating the subject folder only when it is absent. -/
theorem mailRead_attachment_saved (c : Codec) (download subj : String)
    (acc : WalkAcc) (p : Part) (fname : String) (raw : List Nat)
    (hatt : hasAttachment p = true) (hdl : download ≠ "")
    (hfn : p.filename = some fname) (hfne : fname ≠ "")
    (hpl : p.payload = some raw) :
    ∃ tp th fs',
      walkStep c download (.str subj) acc p = Except.ok (tp, th, fs') ∧
      fs'.read (pathJoin (pathJoin download (sanitizeSubject subj)) fname) =
        some raw ∧
      fs'.dirs =
        (if pathJoin download (sanitizeSubject subj) ∈ acc.2.2.dirs
         then acc.2.2.dirs
         else pathJoin download (sanitizeSubject subj) :: acc.2.2.dirs) := by
  have hread : ∀ (dl : List String) (fl : List (String × List Nat))
      (path : String),
      FS.read ⟨dl, (path, raw) :: fl⟩ path = some raw := by
    intro dl fl path
    simp [FS.read]
  unfold walkStep
  cases hb : bodyOf c p with
  | none =>
    refine ⟨acc.1, acc.2.1,
      ⟨if pathJoin download (sanitizeSubject subj) ∈ acc.2.2.dirs
       then acc.2.2.dirs
       else pathJoin download (sanitizeSubject subj) :: acc.2.2.dirs,
       (pathJoin (pathJoin download (sanitizeSubject subj)) fname, raw)
         :: acc.2.2.files⟩, ?_, ?_, ?_⟩
    · exact attachExtract_write_eq download subj acc p fname raw hatt hdl hfn hfne hpl
    · exact hread _ _ _
    · rfl
  | some body =>
    have hfs : (textAccum p body acc).2.2 = acc.2.2 := textAccum_fs p body acc
    refine ⟨(textAccum p body acc).1, (textAccum p body acc).2.1,
      ⟨if pathJoin download (sanitizeSubject subj) ∈ acc.2.2.dirs
       then acc.2.2.dirs
       else pathJoin download (sanitizeSubject subj) :: acc.2.2.dirs,
       (pathJoin (pathJoin download (sanitizeSubject subj)) fname, raw)
         :: acc.2.2.files⟩, ?_, ?_, ?_⟩
    · have hw := attachExtract_write_eq download subj (textAccum p body acc) p
        fname raw hatt hdl hfn hfne hpl
      rw [hfs] at hw
      exact hw
    · exact hread _ _ _
    · rfl

/-- Witness for C7: subject Q1 Report! with attachment report.pdf and
download directory dl produces folder dl/Q1_Report_ and the file
dl/Q1_Report_/report.pdf holding the payload bytes unchanged. -/
theorem mailRead_attachment_saved_witness :
    ∃ tp th fs',
      walkStep codecNone "dl" (.str "Q1 Report!") ("", "", fsEmpty) partAttach =
        Except.ok (tp, th, fs') ∧
      fs'.read "dl/Q1_Report_/report.pdf" = some [1, 2, 3] ∧
      fs'.dirs = ["dl/Q1_Report_"] := by
  obtain ⟨tp, th, fs', h1, h2, h3⟩ :=
    mailRead_attachment_saved codecNone "dl" "Q1 Report!" ("", "", fsEmpty)
      partAttach "report.pdf" [1, 2, 3] rfl (by decide) rfl (by decide) rfl
  refine ⟨tp, th, fs', h1, ?_, ?_⟩
  · exact h2
  · rw [h3]
    rfl

/-- C8: a message without plain-text and HTML parts still carries both
body keys, with empty-string values, in any successful extraction
result. -/
theorem mailRead_no_text_parts_keys_empty (c : Codec) (mail : Msg)
    (download : String) (fs : FS)
    (hparts : ∀ p ∈ mail.parts,
      p.contentType ≠ "text/plain" ∧ p.contentType ≠ "text/html") :
    ∀ res fs', mailRead c mail download fs = Except.ok (res, fs') →
      res.textPlain = "" ∧ res.textHtml = "" := by
  intro res fs' h
  unfold mailRead at h
  split at h
  · simp at h
  · rename_i subj hsubj
    split at h
    · simp at h
    · rename_i sender hsender
      split at h
      · simp at h
      · rename_i recipient hrecip
        split at h
        · simp at h
        · rename_i acc hfold
          have hacc := foldlM_text_preserved c download subj mail.parts
            (("", "", fs) : WalkAcc) acc hparts hfold
          simp only [Except.ok.injEq, Prod.mk.injEq] at h
          rw [← h.1]
          exact ⟨hacc.1, hacc.2⟩

/-- Witness for C8: the one-part binary message extracts to empty strings
for both body keys. -/
theorem mailRead_no_text_parts_keys_empty_witness :
    ∃ res fs', mailRead codecNone msgNoText "" fsEmpty = Except.ok (res, fs') ∧
      res.textPlain = "" ∧ res.textHtml = "" := by
  have h : mailRead codecNone msgNoText "" fsEmpty =
      Except.ok ({ subject := .str "S", sender := .str "F",
                   recipient := .str "T", textPlain := "", textHtml := "" },
                 fsEmpty) := rfl
  refine ⟨_, _, h, ?_⟩
  refine mailRead_no_text_parts_keys_empty codecNone msgNoText "" fsEmpty
    ?_ _ _ h
  intro p hp
  have hp' : p = partBin := by
    simpa [msgNoText] using hp
  rw [hp']
  exact ⟨by decide, by decide⟩

end CustomFunctions
